import Mathlib

/-!
Shallow embedding of the market-data streaming core of the repository
`tidb_agentic_signal`:

* the broadcast hub `WSHub` (internal/trader/binance.go, `WSHub.Run`,
  `WSHub.Broadcast`),
* the upstream websocket session `BinanceWebSocketManager`
  (handleMessages / processMessage / buildCombinedStreams / AddSymbol /
  IsRunning),
* the `MarketDataService` facade (price cache, kline handler,
  persistence flusher, GetAllPrices, AddSymbol).

Go machine values that the verified paths only move around (float64
prices parsed by `strconv.ParseFloat`, `time.Time` stamps) are modelled
by `Int`/`Nat` codes; no arithmetic is performed on them by any embedded
function, so only their identity matters.
-/

namespace Hub

/-- One registered downstream subscriber: Go's `WSClient`.  `id` models the
`*WSClient` pointer identity used as the registry key, `cap` the buffer
capacity of the `send` channel, `queue` the messages currently buffered in
`send` (head = oldest).  The payload type is abstract: the hub moves opaque
`[]byte` values produced by `json.Marshal`. -/
structure Client (α : Type) where
  id : Nat
  cap : Nat
  queue : List α
deriving DecidableEq, Repr

variable {α : Type}

/-- The `broadcast` case of the `select` in `WSHub.Run`: iterate the
registry; `select { case client.send <- message: default: ... }` is a
non-blocking send on a buffered channel, which succeeds exactly when the
buffer has free space; on the `default` branch the client's channel is
closed and the client deleted from the registry.  Returns the surviving
registry (each survivor with the message appended) and the ids of the
clients whose `send` channel was closed.  The function is total in the
registry alone — no step ever waits on a subscriber, which is the
non-blocking-publisher part of the design. -/
def publishOne (m : α) : List (Client α) → List (Client α) × List Nat
  | [] => ([], [])
  | c :: rest =>
    let r := publishOne m rest
    if c.queue.length < c.cap then
      ({ c with queue := c.queue ++ [m] } :: r.1, r.2)
    else
      (r.1, c.id :: r.2)

/-- A sequence of `broadcast` messages processed one after the other by the
hub control loop, accumulating the ids of dropped clients. -/
def publishMany (ms : List α) (l : List (Client α)) :
    List (Client α) × List Nat :=
  match ms with
  | [] => (l, [])
  | m :: rest =>
    let r1 := publishOne m l
    let r2 := publishMany rest r1.1
    (r2.1, r1.2 ++ r2.2)

/-- The `unregister` case of the `select` in `WSHub.Run`:
`if _, ok := h.clients[client]; ok { delete(h.clients, client);
close(client.send) }` — only a currently registered client is removed and
closed; an absent client leaves the state untouched. -/
def unregisterOne (cid : Nat) (l : List (Client α)) :
    List (Client α) × List Nat :=
  if l.any (fun c => c.id == cid) then
    (l.filter (fun c => c.id != cid), [cid])
  else
    (l, [])

/-- The `register` case of the `select` in `WSHub.Run`:
`h.clients[client] = true` — a map insert keyed by the client pointer. -/
def registerOne (c : Client α) (l : List (Client α)) : List (Client α) :=
  if l.any (fun x => x.id == c.id) then l else l ++ [c]

end Hub

namespace GoStr

/-- Model of `strings.ToLower` (the symbols involved are ASCII). -/
def goToLower (s : String) : String := ⟨s.data.map Char.toLower⟩

/-- Model of `strings.ToUpper` (the symbols involved are ASCII). -/
def goToUpper (s : String) : String := ⟨s.data.map Char.toUpper⟩

/-- Model of `strings.EqualFold` for ASCII: equality after case folding. -/
def goEqualFold (a b : String) : Bool := goToLower a == goToLower b

/-- Model of `strings.HasPrefix`. -/
def goStartsWith (s pre : String) : Bool := pre.data.isPrefixOf s.data

/-- Model of `strings.Split` on a one-character separator, over the character
list.  Every occurrence of the separator starts a new field; the empty
input yields one empty field, as in Go. -/
def splitChar (sep : Char) : List Char → List (List Char)
  | [] => [[]]
  | c :: rest =>
    let r := splitChar sep rest
    if c == sep then [] :: r
    else
      match r with
      | [] => [[c]]
      | h :: t => (c :: h) :: t

/-- Model of `strings.Split(s, sep)` for a one-character `sep`. -/
def goSplit (s : String) (sep : Char) : List String :=
  (splitChar sep s.data).map (fun cs => ⟨cs⟩)

end GoStr

namespace WSM

open GoStr

/-- Routing kinds of the multiplexed upstream frames, the four arms of the
`switch` in `processMessage` (`strings.HasPrefix` on the stream suffix). -/
inductive ChannelKind where
  | ticker
  | trade
  | kline
  | depth
deriving DecidableEq, Repr

/-- One inbound frame as seen by `processMessage`.  `malformed` stands for a
byte slice on which `json.Unmarshal` into `CombinedStreamResponse` fails;
`valid stream payloadOk` for one that unmarshals, carrying the routing key
`stream` and a payload whose further marshal/unmarshal round-trip into the
typed event succeeds iff `payloadOk`. -/
inductive Frame where
  | malformed
  | valid (stream : String) (payloadOk : Bool)
deriving DecidableEq, Repr

/-- What one call of `processMessage` did. -/
inductive DecodeOutcome where
  | unmarshalError
  | invalidStreamFormat
  | payloadError (kind : ChannelKind)
  | noHandler (kind : ChannelKind)
  | handled (kind : ChannelKind) (symbol : String)
  | unknownStreamType (t : String)
deriving DecidableEq, Repr

/-- The body shared by `handleTickerData` / `handleTradeData` /
`handleKlineData` / `handleDepthData`: re-marshal the payload, unmarshal
into the typed event (both failures log and return), then invoke the
registered handler if one exists in `dataHandlers`. -/
def handleData (handlers : ChannelKind → Bool) (kind : ChannelKind)
    (payloadOk : Bool) (symbol : String) : DecodeOutcome :=
  if !payloadOk then .payloadError kind
  else if handlers kind then .handled kind symbol
  else .noHandler kind

/-- Model of `processMessage`: unmarshal the frame (failure logs and returns), split
the routing key on `"@"`, require exactly two parts (else log and return),
upper-case the symbol, and dispatch on the stream-type suffix with
`strings.HasPrefix` checks in source order, the default arm logging an
unknown stream type.  Every arm returns to the read loop. -/
def processMessage (handlers : ChannelKind → Bool) :
    Frame → DecodeOutcome
  | .malformed => .unmarshalError
  | .valid stream payloadOk =>
    match goSplit stream '@' with
    | [rawSym, streamType] =>
      let symbol := goToUpper rawSym
      if goStartsWith streamType "ticker" then
        handleData handlers .ticker payloadOk symbol
      else if goStartsWith streamType "trade" then
        handleData handlers .trade payloadOk symbol
      else if goStartsWith streamType "kline" then
        handleData handlers .kline payloadOk symbol
      else if goStartsWith streamType "depth" then
        handleData handlers .depth payloadOk symbol
      else
        .unknownStreamType streamType
    | _ => .invalidStreamFormat

/-- One iteration's input to the read loop `handleMessages`: either
`conn.ReadMessage` yields a frame, or it returns an error (transport error
or close), on which the loop returns. -/
inductive ReadEvent where
  | frame (f : Frame)
  | readError
deriving DecidableEq, Repr

/-- The read loop `handleMessages`: each successfully read frame is passed
to `processMessage` (whose outcome never ends the loop); a read error makes
the loop return.  Result: the decode outcomes in order, and whether the
loop terminated by a read error within the given event sequence. -/
def runReadLoop (handlers : ChannelKind → Bool) :
    List ReadEvent → List DecodeOutcome × Bool
  | [] => ([], false)
  | .readError :: _ => ([], true)
  | .frame f :: rest =>
    let r := runReadLoop handlers rest
    (processMessage handlers f :: r.1, r.2)

/-- Model of `true` iff the outcome is a handler invocation. -/
def DecodeOutcome.isHandled : DecodeOutcome → Bool
  | .handled _ _ => true
  | _ => false

/-- Manager state tracked by the session-lifecycle functions of
`BinanceWebSocketManager` relevant to running-state claims. -/
structure MgrState where
  isRunning : Bool
  connOpen : Bool
deriving DecidableEq, Repr

/-- Model of `Start` (net effect on the state): refuse when already running; set
`isRunning` before dialing; on dial failure reset it to `false` and return
the error; on success keep it `true` with the connection open.  The `Bool`
result tells whether `Start` returned `nil`. -/
def mgrStart (dialOk : Bool) (s : MgrState) : MgrState × Bool :=
  if s.isRunning then (s, false)
  else if dialOk then ({ isRunning := true, connOpen := true }, true)
  else ({ s with isRunning := false }, false)

/-- Model of `Stop`: no-op unless running; otherwise clear `isRunning`, cancel the
context and close the connection. -/
def mgrStop (s : MgrState) : MgrState :=
  if !s.isRunning then s
  else { isRunning := false, connOpen := false }

/-- Net effect of `handleMessages` returning — on `ctx.Done()` or on a
`ReadMessage` error: the deferred `wsm.conn.Close()` runs; the body of
`handleMessages` (part_007 lines 120–139) contains no write to
`wsm.isRunning`, so that field is untouched. -/
def mgrReadLoopExit (s : MgrState) : MgrState :=
  { s with connOpen := false }

/-- Model of `IsRunning`. -/
def mgrIsRunning (s : MgrState) : Bool :=
  s.isRunning

/-- Model of `buildCombinedStreams` over a manager symbol list: per symbol, the four
streams `{sym}@ticker`, `{sym}@trade`, `{sym}@kline_1m`, `{sym}@depth20`
with the symbol lower-cased. -/
def buildCombinedStreams (symbols : List String) : List String :=
  symbols.flatMap (fun symbol =>
    let symbolLower := goToLower symbol
    [symbolLower ++ "@ticker", symbolLower ++ "@trade",
     symbolLower ++ "@kline_1m", symbolLower ++ "@depth20"])

/-- Model of `BinanceWebSocketManager.AddSymbol`: append the upper-cased symbol to
the manager's own list unless an `EqualFold`-equal entry exists (restart
required for it to take effect). -/
def mgrAddSymbol (symbol : String) (symbols : List String) : List String :=
  if symbols.any (fun existing => goEqualFold existing symbol) then
    symbols
  else
    symbols ++ [goToUpper symbol]

end WSM

namespace MDS

/-- A Go `float64` produced by `strconv.ParseFloat` on a wire decimal
string.  The embedded code paths only copy these values (no arithmetic),
so a float64 is modelled by its decimal source string. -/
abbrev F64 := String

/-- Model of `strconv.ParseFloat(s, 64)` with the error discarded, exactly as the
source discards it (`price, _ := strconv.ParseFloat(...)`). -/
def parseFloat (s : String) : F64 := s

/-- Model of `services.PriceData`, the cached per-symbol snapshot (part_014 lines
27–40).  `time.Time` values are modelled by `Nat` codes. -/
structure PriceData where
  symbol : String
  price : F64
  priceChange : F64
  priceChangePercent : F64
  volume : F64
  quoteVolume : F64
  high : F64
  low : F64
  openPrice : F64
  bidPrice : F64
  askPrice : F64
  timestamp : Nat
deriving DecidableEq, Repr

/-- A Go `map[string]PriceData` with its insertion-ordered entries; Go maps
hold at most one entry per key. -/
abbrev PriceMap := List (String × PriceData)

/-- Go map read `m[k]`. -/
def mapLookup (m : PriceMap) (k : String) : Option PriceData :=
  match m with
  | [] => none
  | (k0, v0) :: rest => if k0 == k then some v0 else mapLookup rest k

/-- Go map write `m[k] = v`: overwrite the entry for `k` in place, or add
one. -/
def mapInsert (m : PriceMap) (k : String) (v : PriceData) : PriceMap :=
  match m with
  | [] => [(k, v)]
  | (k0, v0) :: rest =>
    if k0 == k then (k, v) :: rest else (k0, v0) :: mapInsert rest k v

/-- Model of `db.MarketPrice` (internal/db/market_data.go lines 20–34).  The
`*float64` fields are modelled by the pointed-to values: every literal in
the embedded paths sets all of them. -/
structure MarketPrice where
  id : Int
  symbol : String
  price : F64
  priceChange : F64
  priceChangePercent : F64
  volume : F64
  quoteVolume : F64
  high24h : F64
  low24h : F64
  openPrice : F64
  bidPrice : F64
  askPrice : F64
  timestamp : Nat
deriving DecidableEq, Repr

/-- The `db.MarketPrice` literal built for one cache entry in
`storeCachedPricesToTiDB` (part_014 lines 456–469); `ID` is left zero. -/
def toMarketPrice (symbol : String) (pd : PriceData) : MarketPrice :=
  { id := 0
    symbol := symbol
    price := pd.price
    priceChange := pd.priceChange
    priceChangePercent := pd.priceChangePercent
    volume := pd.volume
    quoteVolume := pd.quoteVolume
    high24h := pd.high
    low24h := pd.low
    openPrice := pd.openPrice
    bidPrice := pd.bidPrice
    askPrice := pd.askPrice
    timestamp := pd.timestamp }

/-- Model of `storeCachedPricesToTiDB`: iterate the cache; per entry build a
`db.MarketPrice` and call `StorePrice`; a per-item error is only logged and
the loop continues with the next entry (no early exit appears in the loop
body).  `fails` gives each call's outcome; the result lists every call with
its outcome, in iteration order. -/
def flushOnce (fails : MarketPrice → Bool) :
    PriceMap → List (MarketPrice × Bool)
  | [] => []
  | (symbol, pd) :: rest =>
    let mp := toMarketPrice symbol pd
    (mp, fails mp) :: flushOnce fails rest

/-- The `StorePrice` payloads of one flusher run, in iteration order. -/
def storeCalls (cache : PriceMap) : List MarketPrice :=
  cache.map (fun e => toMarketPrice e.1 e.2)

/-- The kline object `k` of `trader.WSKlineEvent` (binance.go lines
279–301), restricted to the fields `handleKlineUpdate` reads. -/
structure Kline where
  startTime : Int
  endTime : Int
  symbol : String
  interval : String
  openPrice : F64
  closePrice : F64
  highPrice : F64
  lowPrice : F64
  volume : F64
  isClosed : Bool
deriving DecidableEq, Repr

/-- Model of `trader.WSKlineEvent`. -/
structure KlineEvent where
  eventType : String
  eventTime : Int
  symbol : String
  kline : Kline
deriving DecidableEq, Repr

/-- Model of `trader.WSTickerEvent` (binance.go lines 229–253), restricted to the
fields `handleTickerUpdate` reads. -/
structure TickerEvent where
  eventType : String
  eventTime : Int
  symbol : String
  priceChange : F64
  priceChangePercent : F64
  lastPrice : F64
  bestBidPrice : F64
  bestAskPrice : F64
  openPrice : F64
  highPrice : F64
  lowPrice : F64
  totalTradedVolume : F64
  totalTradedQuote : F64
deriving DecidableEq, Repr

/-- Model of `db.MarketKline` (internal/db/market_data.go lines 58–73).
`time.Unix(0, t*int64(time.Millisecond))` is injective in `t`; the
resulting `time.Time` is modelled by `t` itself.  The `QuoteVolume` and
`TradeCount` pointers are nil in the embedded path, hence `Option`. -/
structure MarketKline where
  id : Int
  symbol : String
  intervalType : String
  openPrice : F64
  highPrice : F64
  lowPrice : F64
  closePrice : F64
  volume : F64
  quoteVolume : Option F64
  openTime : Int
  closeTime : Int
  isClosed : Bool
  tradeCount : Option Int
  timestamp : Nat
deriving DecidableEq, Repr

/-- The payload placed in `MarketUpdate.Data` (an `interface{}` in Go) by
the embedded handlers. -/
inductive UpdatePayload where
  | price (pd : PriceData)
  | kline (e : KlineEvent)
deriving DecidableEq, Repr

/-- Model of `services.MarketUpdate` (part_014 lines 42–48): the inner envelope the
handlers build; `Metadata` carries `omitempty`. -/
structure MarketUpdate where
  type : String
  symbol : String
  data : UpdatePayload
  timestamp : Nat
  metadata : Option (List (String × String))
deriving DecidableEq, Repr

/-- An externally visible action of a handler: a persistence call or a hub
broadcast (`WSHub.Broadcast(messageType, update)`). -/
inductive Effect where
  | storePrice (mp : MarketPrice)
  | storeKline (mk : MarketKline)
  | broadcast (messageType : String) (update : MarketUpdate)
deriving DecidableEq, Repr

def Effect.isStoreKline : Effect → Bool
  | .storeKline _ => true
  | _ => false

def Effect.isStorePrice : Effect → Bool
  | .storePrice _ => true
  | _ => false

def Effect.isBroadcast : Effect → Bool
  | .broadcast _ _ => true
  | _ => false

/-- Model of `handleKlineUpdate` (part_014 lines 715–747).  A non-closed kline is
dropped at the top (`if !event.Kline.IsClosed { return // Only process
closed klines }`); a closed kline is parsed, stored once via
`StoreKlineData` → `StoreKline` (a store error is logged and execution
continues), then broadcast once through the hub.  `now` stands for
`time.Now()`. -/
def handleKlineUpdate (now : Nat) (e : KlineEvent) : List Effect :=
  if !e.kline.isClosed then []
  else
    let mk : MarketKline :=
      { id := 0
        symbol := e.kline.symbol
        intervalType := e.kline.interval
        openPrice := parseFloat e.kline.openPrice
        highPrice := parseFloat e.kline.highPrice
        lowPrice := parseFloat e.kline.lowPrice
        closePrice := parseFloat e.kline.closePrice
        volume := parseFloat e.kline.volume
        quoteVolume := none
        openTime := e.kline.startTime
        closeTime := e.kline.endTime
        isClosed := e.kline.isClosed
        tradeCount := none
        timestamp := now }
    [Effect.storeKline mk,
     Effect.broadcast "market_update"
       { type := "kline"
         symbol := e.kline.symbol
         data := UpdatePayload.kline e
         timestamp := now
         metadata := none }]

/-- The `PriceData` built from a ticker event by `handleTickerUpdate`
(part_014 lines 609–634). -/
def tickerPriceData (now : Nat) (e : TickerEvent) : PriceData :=
  { symbol := e.symbol
    price := parseFloat e.lastPrice
    priceChange := parseFloat e.priceChange
    priceChangePercent := parseFloat e.priceChangePercent
    volume := parseFloat e.totalTradedVolume
    quoteVolume := parseFloat e.totalTradedQuote
    high := parseFloat e.highPrice
    low := parseFloat e.lowPrice
    openPrice := parseFloat e.openPrice
    bidPrice := parseFloat e.bestBidPrice
    askPrice := parseFloat e.bestAskPrice
    timestamp := now }

/-- The `db.MarketPrice` literal of `handleTickerUpdate` (part_014 lines
641–654). -/
def tickerMarketPrice (now : Nat) (e : TickerEvent) : MarketPrice :=
  { id := 0
    symbol := e.symbol
    price := parseFloat e.lastPrice
    priceChange := parseFloat e.priceChange
    priceChangePercent := parseFloat e.priceChangePercent
    volume := parseFloat e.totalTradedVolume
    quoteVolume := parseFloat e.totalTradedQuote
    high24h := parseFloat e.highPrice
    low24h := parseFloat e.lowPrice
    openPrice := parseFloat e.openPrice
    bidPrice := parseFloat e.bestBidPrice
    askPrice := parseFloat e.bestAskPrice
    timestamp := now }

/-- Model of `handleTickerUpdate` (part_014 lines 609–671): build the snapshot,
write it into the price cache, store once, broadcast once.  Returns the new
cache and the effects in program order. -/
def handleTickerUpdate (now : Nat) (e : TickerEvent) (cache : PriceMap) :
    PriceMap × List Effect :=
  let pd := tickerPriceData now e
  (mapInsert cache e.symbol pd,
   [Effect.storePrice (tickerMarketPrice now e),
    Effect.broadcast "market_update"
      { type := "ticker"
        symbol := e.symbol
        data := UpdatePayload.price pd
        timestamp := now
        metadata := none }])

/-- JSON values, for the wire shape of broadcast envelopes. -/
inductive Json where
  | str (s : String)
  | num (n : Int)
  | boolean (b : Bool)
  | arr (elems : List Json)
  | obj (fields : List (String × Json))
  | null
deriving Repr

/-- Model of `json.Marshal` of `services.PriceData` under its field tags (part_014
lines 27–40); float64 values appear as JSON numbers, here carried by their
decimal strings. -/
def priceDataJson (pd : PriceData) : Json :=
  .obj [("symbol", .str pd.symbol), ("price", .str pd.price),
        ("priceChange", .str pd.priceChange),
        ("priceChangePercent", .str pd.priceChangePercent),
        ("volume", .str pd.volume), ("quoteVolume", .str pd.quoteVolume),
        ("high", .str pd.high), ("low", .str pd.low),
        ("openPrice", .str pd.openPrice), ("bidPrice", .str pd.bidPrice),
        ("askPrice", .str pd.askPrice),
        ("timestamp", .num (Int.ofNat pd.timestamp))]

/-- Model of `json.Marshal` of the kline event payload; only its being an object is
relevant to the envelope claims. -/
def klineEventJson (e : KlineEvent) : Json :=
  .obj [("e", .str e.eventType), ("E", .num e.eventTime),
        ("s", .str e.symbol),
        ("k", .obj [("t", .num e.kline.startTime),
                    ("T", .num e.kline.endTime),
                    ("s", .str e.kline.symbol),
                    ("i", .str e.kline.interval),
                    ("o", .str e.kline.openPrice),
                    ("c", .str e.kline.closePrice),
                    ("h", .str e.kline.highPrice),
                    ("l", .str e.kline.lowPrice),
                    ("v", .str e.kline.volume),
                    ("x", .boolean e.kline.isClosed)])]

def payloadJson : UpdatePayload → Json
  | .price pd => priceDataJson pd
  | .kline e => klineEventJson e

/-- Model of `json.Marshal` of `services.MarketUpdate` under its tags: `type`,
`symbol`, `data`, `timestamp`, and `metadata` only when set
(`omitempty`). -/
def marketUpdateJson (u : MarketUpdate) : Json :=
  .obj ([("type", .str u.type), ("symbol", .str u.symbol),
         ("data", payloadJson u.data),
         ("timestamp", .num (Int.ofNat u.timestamp))]
        ++ (match u.metadata with
            | none => []
            | some md =>
              [("metadata", .obj (md.map (fun kv => (kv.1, .str kv.2))))]))

/-- Model of `WSHub.Broadcast(messageType, data)` marshals
`WSMessage{Type: messageType, Data: data}` (binance.go lines 778–782,
819–832) and hands the bytes to the hub broadcast channel: the wire object
enqueued on every subscriber queue. -/
def wsMessageJson (messageType : String) (data : Json) : Json :=
  .obj [("type", .str messageType), ("data", data)]

/-- The top-level field names of a JSON object. -/
def topKeys : Json → List String
  | .obj fields => fields.map (fun f => f.1)
  | _ => []

/-- Top-level field read of a JSON object. -/
def jsonGet (j : Json) (key : String) : Option Json :=
  match j with
  | .obj fields =>
    match fields.find? (fun f => f.1 == key) with
    | some f => some f.2
    | none => none
  | _ => none

/-- The wire bytes enqueued for one broadcast effect. -/
def wireOf : Effect → Option Json
  | .broadcast t u => some (wsMessageJson t (marketUpdateJson u))
  | _ => none

/-- A heap of Go map objects: cell index = object identity.  Distinguishes
an aliased return of `s.priceCache` from the defensive copy that
`GetAllPrices` builds. -/
structure Heap where
  cells : List PriceMap
deriving Repr

def heapGet (h : Heap) (r : Nat) : PriceMap :=
  h.cells.getD r []

def heapSet (h : Heap) (r : Nat) (m : PriceMap) : Heap :=
  ⟨h.cells.set r m⟩

/-- Allocation of a fresh map object (`make(map[string]PriceData)`). -/
def heapAlloc (h : Heap) (m : PriceMap) : Nat × Heap :=
  (h.cells.length, ⟨h.cells ++ [m]⟩)

/-- Model of `GetAllPrices` (part_014 lines 182–191): under the read lock, allocate
a fresh map and copy every cache entry into it (`result[k] = v` in a range
loop); the cache cell itself is not written. -/
def getAllPrices (cacheRef : Nat) (h : Heap) : Nat × Heap :=
  let copy := (heapGet h cacheRef).foldl (fun acc kv => mapInsert acc kv.1 kv.2) []
  heapAlloc h copy

/-- A caller-side mutation of a returned map object: `m[k] = v` through its
reference. -/
def heapMapAssign (h : Heap) (r : Nat) (k : String) (v : PriceData) : Heap :=
  heapSet h r (mapInsert (heapGet h r) k v)

/-- Model of `GetPriceData` (part_014 lines 175–180): a read of the cache cell. -/
def getPriceData (cacheRef : Nat) (h : Heap) (symbol : String) :
    Option PriceData :=
  mapLookup (heapGet h cacheRef) symbol

/-- The `MarketDataService` state relevant to the symbol-list claims:
the service's own `symbols` slice and the embedded
`BinanceWebSocketManager`'s `symbols` slice.  `NewMarketDataService` builds
the manager once with the initial list; a later `append` on either slice
reallocates, so the two lists evolve independently (value semantics). -/
structure ServiceState where
  symbols : List String
  mgrSymbols : List String
  running : Bool
deriving DecidableEq, Repr

/-- The symbol list hard-wired in `NewMarketDataService` (part_014 line
79), shared with the freshly built manager. -/
def defaultSymbols : List String :=
  ["BTCUSDT", "ETHUSDT", "BNBUSDT", "ADAUSDT", "SOLUSDT"]

/-- Model of `NewMarketDataService` (part_014 lines 78–94). -/
def newMarketDataService : ServiceState :=
  { symbols := defaultSymbols, mgrSymbols := defaultSymbols,
    running := false }

/-- Model of `MarketDataService.AddSymbol` (part_014 lines 193–205): under the
write lock, skip an exact duplicate, else append to the service's own
`s.symbols`.  No call to `wsManager.AddSymbol` appears, so the manager's
list is untouched. -/
def serviceAddSymbol (symbol : String) (s : ServiceState) : ServiceState :=
  if s.symbols.any (fun existing => existing == symbol) then s
  else { s with symbols := s.symbols ++ [symbol] }

/-- The combined-stream list the next restart would subscribe:
`StartStreaming` calls `wsManager.Start`, which builds the URL from
`buildCombinedStreams` over the manager's `symbols` (part_007 lines
59–60, 101–117). -/
def nextRestartStreams (s : ServiceState) : List String :=
  WSM.buildCombinedStreams s.mgrSymbols

end MDS

namespace Examples

/-- A two-client registry whose first client's queue is full (capacity 1,
one buffered message). -/
def fullReg : List (Hub.Client Nat) := [⟨0, 1, [5]⟩, ⟨1, 2, []⟩]

/-- The full client of `fullReg`. -/
def fullClient : Hub.Client Nat := ⟨0, 1, [5]⟩

/-- A registry where both clients have room for a two-message batch. -/
def roomyReg : List (Hub.Client Nat) := [⟨0, 2, []⟩, ⟨1, 3, [4]⟩]

/-- A singleton registry. -/
def oneReg : List (Hub.Client Nat) := [⟨0, 1, []⟩]

/-- A kline event whose candle is still open (`closed=false`). -/
def openKlineEv : MDS.KlineEvent :=
  { eventType := "kline", eventTime := 1700000000000, symbol := "BTCUSDT",
    kline := { startTime := 1700000000000, endTime := 1700000059999,
               symbol := "BTCUSDT", interval := "1m",
               openPrice := "65000.00", closePrice := "65010.00",
               highPrice := "65020.00", lowPrice := "64990.00",
               volume := "12.5", isClosed := false } }

/-- The same candle once it closes (`closed=true`). -/
def closedKlineEv : MDS.KlineEvent :=
  { eventType := "kline", eventTime := 1700000060000, symbol := "BTCUSDT",
    kline := { startTime := 1700000000000, endTime := 1700000059999,
               symbol := "BTCUSDT", interval := "1m",
               openPrice := "65000.00", closePrice := "65012.00",
               highPrice := "65020.00", lowPrice := "64990.00",
               volume := "14.1", isClosed := true } }

/-- A concrete 24h ticker event for BTCUSDT. -/
def tickerEv : MDS.TickerEvent :=
  { eventType := "24hrTicker", eventTime := 1700000000000,
    symbol := "BTCUSDT", priceChange := "150.00",
    priceChangePercent := "0.23", lastPrice := "65000.00",
    bestBidPrice := "64999.99", bestAskPrice := "65000.01",
    openPrice := "64850.00", highPrice := "65200.00",
    lowPrice := "64700.00", totalTradedVolume := "1234.5",
    totalTradedQuote := "80000000.0" }

/-- The wire object `WSHub.Broadcast` enqueues for the ticker update built
from `tickerEv` at time 1700000000123. -/
def tickerWire : MDS.Json :=
  MDS.wsMessageJson "market_update"
    (MDS.marketUpdateJson
      { type := "ticker", symbol := "BTCUSDT",
        data := MDS.UpdatePayload.price
          (MDS.tickerPriceData 1700000000123 tickerEv),
        timestamp := 1700000000123, metadata := none })

/-- A cached snapshot. -/
def pd1 : MDS.PriceData :=
  { symbol := "BTCUSDT", price := "65000.00", priceChange := "150.00",
    priceChangePercent := "0.23", volume := "1234.5",
    quoteVolume := "80000000.0", high := "65200.00", low := "64700.00",
    openPrice := "64850.00", bidPrice := "64999.99",
    askPrice := "65000.01", timestamp := 1700000000123 }

/-- A second snapshot, used as the value written by the mutating caller. -/
def pd2 : MDS.PriceData :=
  { pd1 with price := "1.00", symbol := "HACKED" }

/-- A one-cell heap whose cell 0 is the service's price cache. -/
def heap1 : MDS.Heap := ⟨[[("BTCUSDT", pd1)]]⟩

end Examples

/-! ## Theorems -/

namespace Hub

variable {α : Type}

/-- Registry part of a publish: survivors are exactly the clients with a
free queue slot, each with the message appended. -/
theorem publishOne_fst (m : α) (l : List (Client α)) :
    (publishOne m l).1
      = (l.filter (fun c => c.queue.length < c.cap)).map
          (fun c => { c with queue := c.queue ++ [m] }) := by
  induction l with
  | nil => rfl
  | cons c rest ih =>
    by_cases h : c.queue.length < c.cap <;>
      simp [publishOne, List.filter_cons, h, ih]

/-- Closed-channel part of a publish: exactly the ids of the clients whose
queue was full. -/
theorem publishOne_snd (m : α) (l : List (Client α)) :
    (publishOne m l).2
      = (l.filter (fun c => !(c.queue.length < c.cap))).map
          (fun c => c.id) := by
  induction l with
  | nil => rfl
  | cons c rest ih =>
    by_cases h : c.queue.length < c.cap <;>
      simp [publishOne, List.filter_cons, h, ih]

theorem queue_append_nil (c : Client α) :
    { c with queue := c.queue ++ ([] : List α) } = c := by
  cases c with
  | mk cid ccap cqueue => simp

/-- When every client has a free slot, a publish appends the message to
every queue and drops nobody. -/
theorem publishOne_of_space (m : α) (l : List (Client α))
    (h : ∀ c ∈ l, c.queue.length < c.cap) :
    publishOne m l
      = (l.map (fun c => { c with queue := c.queue ++ [m] }), []) := by
  induction l with
  | nil => rfl
  | cons c rest ih =>
    have hc := h c (List.mem_cons_self _ _)
    have hrest := ih (fun x hx => h x (List.mem_cons_of_mem _ hx))
    simp [publishOne, hc, hrest]

end Hub

open Hub WSM MDS in
/-- C1: for every hub registry state and published message, when the hub
control loop processes a publish and subscriber S's private outbound queue
is full, S is removed from the registry and S's send channel is closed,
while every other registered subscriber (each having queue space) still has
the message enqueued onto its queue; the publish step is a total function
of the registry alone, so the publisher never waits on S. -/
theorem hub_slow_consumer_isolation {α : Type} (m : α)
    (l : List (Hub.Client α))
    (S : Hub.Client α) (hnodup : (l.map (fun c => c.id)).Nodup)
    (hS : S ∈ l) (hfull : S.cap ≤ S.queue.length) :
    (∀ c ∈ (publishOne m l).1, c.id ≠ S.id) ∧
    S.id ∈ (publishOne m l).2 ∧
    (∀ c ∈ l, c.queue.length < c.cap →
      { c with queue := c.queue ++ [m] } ∈ (publishOne m l).1) := by
  have hinj := List.inj_on_of_nodup_map hnodup
  refine ⟨?_, ?_, ?_⟩
  · intro c hc hid
    rw [publishOne_fst] at hc
    rcases List.mem_map.mp hc with ⟨c0, hc0, hc0eq⟩
    rcases List.mem_filter.mp hc0 with ⟨hc0mem, hc0space⟩
    have hidc0 : c0.id = S.id := by
      have : ({ c0 with queue := c0.queue ++ [m] } : Client α).id = c0.id := rfl
      rw [← hc0eq, this] at hid
      exact hid
    have : c0 = S := hinj hc0mem hS hidc0
    subst this
    have := of_decide_eq_true hc0space
    omega
  · rw [publishOne_snd]
    refine List.mem_map.mpr ⟨S, List.mem_filter.mpr ⟨hS, ?_⟩, rfl⟩
    simp [Nat.not_lt.mpr hfull]
  · intro c hc hspace
    rw [publishOne_fst]
    exact List.mem_map.mpr
      ⟨c, List.mem_filter.mpr ⟨hc, decide_eq_true hspace⟩, rfl⟩

open Hub in
/-- C2: when every currently registered subscriber's queue has room for the
whole batch, processing the sequence of publishes enqueues each message
exactly once onto every subscriber's queue, appended in publish order (FIFO
per subscriber queue), and no subscriber is dropped. -/
theorem hub_fanout_fifo {α : Type} (ms : List α) (l : List (Hub.Client α))
    (hspace : ∀ c ∈ l, c.queue.length + ms.length ≤ c.cap) :
    publishMany ms l
      = (l.map (fun c => { c with queue := c.queue ++ ms }), []) := by
  induction ms generalizing l with
  | nil =>
    simp [publishMany, queue_append_nil]
  | cons m rest ih =>
    have h1 : ∀ c ∈ l, c.queue.length < c.cap := by
      intro c hc
      have := hspace c hc
      simp only [List.length_cons] at this
      omega
    have hpub := publishOne_of_space m l h1
    have h2 : ∀ c ∈ l.map (fun c => { c with queue := c.queue ++ [m] }),
        c.queue.length + rest.length ≤ c.cap := by
      intro c hc
      rcases List.mem_map.mp hc with ⟨c0, hc0, rfl⟩
      have := hspace c0 hc0
      simp only [List.length_cons] at this
      simp only [List.length_append, List.length_singleton]
      omega
    have hrest := ih _ h2
    simp only [publishMany, hpub, hrest, List.map_map, Prod.mk.injEq,
      List.append_nil]
    refine ⟨?_, trivial⟩
    apply List.map_congr_left
    intro c _
    simp [Function.comp, List.append_assoc]

/-- Witness for C1: publishing into `fullReg` drops the full client 0,
closes its channel, and still delivers to client 1. -/
theorem hub_slow_consumer_isolation_witness :
    ((Examples.fullReg.map (fun c => c.id)).Nodup ∧
      Examples.fullClient ∈ Examples.fullReg ∧
      Examples.fullClient.cap ≤ Examples.fullClient.queue.length) ∧
    ((∀ c ∈ (Hub.publishOne 9 Examples.fullReg).1,
        c.id ≠ Examples.fullClient.id) ∧
      Examples.fullClient.id ∈ (Hub.publishOne 9 Examples.fullReg).2 ∧
      (∀ c ∈ Examples.fullReg, c.queue.length < c.cap →
        { c with queue := c.queue ++ [9] } ∈
          (Hub.publishOne 9 Examples.fullReg).1)) :=
  ⟨⟨by decide, by decide, by decide⟩,
    hub_slow_consumer_isolation 9 Examples.fullReg Examples.fullClient
      (by decide) (by decide) (by decide)⟩

/-- Witness for C2: a two-message batch lands, in order, at the back of
both queues of `roomyReg`. -/
theorem hub_fanout_fifo_witness :
    (∀ c ∈ Examples.roomyReg,
      c.queue.length + ([7, 8] : List Nat).length ≤ c.cap) ∧
    Hub.publishMany [7, 8] Examples.roomyReg
      = (Examples.roomyReg.map
          (fun c => { c with queue := c.queue ++ [7, 8] }), []) :=
  ⟨by decide, hub_fanout_fifo [7, 8] Examples.roomyReg (by decide)⟩

open Hub in
/-- C10: hub unregister is idempotent on the hub state: an unregister for a
connection absent from the registry (for example one already dropped for
queue overflow during a publish) leaves the registry unchanged and closes
no channel, and a second unregister for the same connection is a no-op —
processing it twice has the same effect on hub state as once, and the send
channel is never closed a second time. -/
theorem hub_unregister_idempotent {α : Type} (cid : Nat)
    (l : List (Hub.Client α)) :
    (cid ∉ l.map (fun c => c.id) → Hub.unregisterOne cid l = (l, [])) ∧
    Hub.unregisterOne cid (Hub.unregisterOne cid l).1
      = ((Hub.unregisterOne cid l).1, []) := by
  constructor
  · intro h
    have hany : l.any (fun c => c.id == cid) = false := by
      rw [List.any_eq_false]
      intro c hc
      simp only [beq_iff_eq]
      intro hcid
      exact h (List.mem_map.mpr ⟨c, hc, hcid⟩)
    simp [Hub.unregisterOne, hany]
  · by_cases hany : l.any (fun c => c.id == cid) = true
    · have hfil : (l.filter (fun c => c.id != cid)).any
          (fun c => c.id == cid) = false := by
        rw [List.any_eq_false]
        intro c hc
        have hmem := List.of_mem_filter hc
        simpa using hmem
      simp [Hub.unregisterOne, hany, hfil]
    · have hany2 : l.any (fun c => c.id == cid) = false := by
        simpa using hany
      simp [Hub.unregisterOne, hany2]

/-- Witness for C10 on a singleton registry and an absent id. -/
theorem hub_unregister_idempotent_witness :
    Hub.unregisterOne 7 Examples.oneReg = (Examples.oneReg, []) ∧
    Hub.unregisterOne 7 (Hub.unregisterOne 7 Examples.oneReg).1
      = ((Hub.unregisterOne 7 Examples.oneReg).1, []) :=
  ⟨(hub_unregister_idempotent 7 Examples.oneReg).1 (by decide),
    (hub_unregister_idempotent 7 Examples.oneReg).2⟩

/-- C3 counterexample: start a session successfully, then let
`handleMessages` return on a transport read error: the claim says
`isRunning()` is then `false`, but the manager still reports running —
nothing on the read-loop exit path writes `isRunning`. -/
theorem session_stop_flag_counterexample :
    ¬ (WSM.mgrIsRunning
        (WSM.mgrReadLoopExit
          (WSM.mgrStart true { isRunning := false, connOpen := false }).1)
        = false) := by decide

/-- C3 amended: when the read loop exits (transport error or clean close),
the deferred close shuts the connection but the running flag is left
unchanged — a session that was running still reports `isRunning() == true`;
the flag only becomes false through `Stop` (or a failed `Start`). -/
theorem session_read_exit_keeps_running_flag (s : WSM.MgrState) :
    WSM.mgrIsRunning (WSM.mgrReadLoopExit s) = WSM.mgrIsRunning s ∧
    (WSM.mgrReadLoopExit s).connOpen = false ∧
    WSM.mgrIsRunning (WSM.mgrStop s) = false := by
  refine ⟨rfl, rfl, ?_⟩
  by_cases h : s.isRunning <;>
    simp [WSM.mgrStop, WSM.mgrIsRunning, h]

/-- C9 counterexample: add XRPUSDT through the service on a freshly built
service: the symbol is recorded in the service's list, yet the stream list
the next restart would use is unchanged and contains no XRPUSDT stream. -/
theorem add_symbol_restart_counterexample :
    "XRPUSDT" ∈ (MDS.serviceAddSymbol "XRPUSDT"
        MDS.newMarketDataService).symbols ∧
    (MDS.nextRestartStreams (MDS.serviceAddSymbol "XRPUSDT"
        MDS.newMarketDataService)).contains "xrpusdt@ticker" = false ∧
    MDS.nextRestartStreams (MDS.serviceAddSymbol "XRPUSDT"
        MDS.newMarketDataService)
      = MDS.nextRestartStreams MDS.newMarketDataService := by
  refine ⟨by decide, by decide, rfl⟩

/-- C9 amended: `MarketDataService.AddSymbol` updates only the service's
own in-memory list; the websocket manager's subscription list — the one
`buildCombinedStreams` reads on the next restart — is untouched, so the
next `Start` does not subscribe the added symbol's streams, and no dynamic
re-subscribe of the live connection happens. -/
theorem add_symbol_updates_service_list_only (symbol : String)
    (s : MDS.ServiceState) :
    symbol ∈ (MDS.serviceAddSymbol symbol s).symbols ∧
    (MDS.serviceAddSymbol symbol s).mgrSymbols = s.mgrSymbols ∧
    MDS.nextRestartStreams (MDS.serviceAddSymbol symbol s)
      = MDS.nextRestartStreams s := by
  refine ⟨?_, ?_, ?_⟩
  · by_cases h : s.symbols.any (fun existing => existing == symbol)
    · rcases List.any_eq_true.mp h with ⟨x, hx, hxe⟩
      have : x = symbol := by simpa using hxe
      subst this
      simp [MDS.serviceAddSymbol, h, hx]
    · have hnot : symbol ∉ s.symbols := by simpa using h
      have h2 : s.symbols.any (fun existing => existing == symbol)
          = false := by
        rw [List.any_eq_false]
        intro x hx
        simp only [beq_iff_eq]
        intro he
        exact hnot (he ▸ hx)
      simp [MDS.serviceAddSymbol, h2]
  · by_cases h : s.symbols.any (fun existing => existing == symbol) <;>
      simp [MDS.serviceAddSymbol, h]
  · by_cases h : s.symbols.any (fun existing => existing == symbol) <;>
      simp [MDS.nextRestartStreams, MDS.serviceAddSymbol, h]

/-- C4 counterexample: a kline update with `closed=false` produces no
effect at all — in particular it is not broadcast to subscribers, contrary
to the claim that an in-progress candle is still broadcast:
`handleKlineUpdate` returns before doing anything. -/
theorem kline_open_not_broadcast_counterexample :
    Examples.openKlineEv.kline.isClosed = false ∧
    MDS.handleKlineUpdate 1700000000050 Examples.openKlineEv = [] ∧
    ¬ (∃ eff ∈ MDS.handleKlineUpdate 1700000000050 Examples.openKlineEv,
        MDS.Effect.isBroadcast eff = true) := by
  refine ⟨rfl, rfl, ?_⟩
  rintro ⟨eff, heff, -⟩
  simp [MDS.handleKlineUpdate, Examples.openKlineEv] at heff

/-- C4 amended: a kline update with `closed=false` triggers neither a
persistence call nor a broadcast (the handler returns at the top); one with
`closed=true` triggers exactly one persistence (`StoreKline`) call and one
broadcast; so in a closed=false / closed=true sequence for the same
open-time, only the closed=true update produces a persistence call. -/
theorem kline_persistence_policy (now1 now2 : Nat)
    (e1 e2 : MDS.KlineEvent)
    (h1 : e1.kline.isClosed = false) (h2 : e2.kline.isClosed = true) :
    MDS.handleKlineUpdate now1 e1 = [] ∧
    ((MDS.handleKlineUpdate now2 e2).filter
        MDS.Effect.isStoreKline).length = 1 ∧
    ((MDS.handleKlineUpdate now2 e2).filter
        MDS.Effect.isBroadcast).length = 1 ∧
    ((MDS.handleKlineUpdate now1 e1
        ++ MDS.handleKlineUpdate now2 e2).filter
        MDS.Effect.isStoreKline).length = 1 := by
  refine ⟨?_, ?_, ?_, ?_⟩ <;>
    simp [MDS.handleKlineUpdate, h1, h2, MDS.Effect.isStoreKline,
      MDS.Effect.isBroadcast, List.filter]

/-- Witness for C4 at the concrete open/closed pair of kline events. -/
theorem kline_persistence_policy_witness :
    (Examples.openKlineEv.kline.isClosed = false ∧
      Examples.closedKlineEv.kline.isClosed = true) ∧
    (MDS.handleKlineUpdate 1700000000050 Examples.openKlineEv = [] ∧
      ((MDS.handleKlineUpdate 1700000060001 Examples.closedKlineEv).filter
          MDS.Effect.isStoreKline).length = 1 ∧
      ((MDS.handleKlineUpdate 1700000060001 Examples.closedKlineEv).filter
          MDS.Effect.isBroadcast).length = 1 ∧
      ((MDS.handleKlineUpdate 1700000000050 Examples.openKlineEv
          ++ MDS.handleKlineUpdate 1700000060001 Examples.closedKlineEv).filter
          MDS.Effect.isStoreKline).length = 1) :=
  ⟨⟨rfl, rfl⟩,
    kline_persistence_policy 1700000000050 1700000060001
      Examples.openKlineEv Examples.closedKlineEv rfl rfl⟩

/-- The read loop over error-free input processes every frame and does not
terminate. -/
theorem runReadLoop_frames (handlers : WSM.ChannelKind → Bool)
    (fs : List WSM.Frame) :
    WSM.runReadLoop handlers (fs.map WSM.ReadEvent.frame)
      = (fs.map (WSM.processMessage handlers), false) := by
  induction fs with
  | nil => rfl
  | cons f rest ih => simp [WSM.runReadLoop, ih]

/-- C5: a frame that fails to decode — malformed JSON, a routing key that
does not split on `@` into exactly two parts, or an unknown channel type —
invokes no handler and never terminates the read loop; consequently one
malformed frame followed by N well-decoding frames yields exactly N handler
invocations, N+1 processed frames, and no session termination. -/
theorem decode_resilience (handlers : WSM.ChannelKind → Bool)
    (fs : List WSM.Frame)
    (hval : ∀ f ∈ fs,
      (WSM.processMessage handlers f).isHandled = true) :
    (WSM.processMessage handlers WSM.Frame.malformed).isHandled = false ∧
    (∀ stream payloadOk, (GoStr.goSplit stream '@').length ≠ 2 →
      (WSM.processMessage handlers
        (WSM.Frame.valid stream payloadOk)).isHandled = false) ∧
    (∀ stream payloadOk rawSym streamType,
      GoStr.goSplit stream '@' = [rawSym, streamType] →
      GoStr.goStartsWith streamType "ticker" = false →
      GoStr.goStartsWith streamType "trade" = false →
      GoStr.goStartsWith streamType "kline" = false →
      GoStr.goStartsWith streamType "depth" = false →
      (WSM.processMessage handlers
        (WSM.Frame.valid stream payloadOk)).isHandled = false) ∧
    ((WSM.runReadLoop handlers
        ((WSM.Frame.malformed :: fs).map WSM.ReadEvent.frame)).1.filter
        (fun o => o.isHandled)).length = fs.length ∧
    (WSM.runReadLoop handlers
        ((WSM.Frame.malformed :: fs).map WSM.ReadEvent.frame)).2 = false ∧
    (WSM.runReadLoop handlers
        ((WSM.Frame.malformed :: fs).map WSM.ReadEvent.frame)).1.length
      = fs.length + 1 := by
  have hrun := runReadLoop_frames handlers (WSM.Frame.malformed :: fs)
  refine ⟨rfl, ?_, ?_, ?_, ?_, ?_⟩
  · intro stream payloadOk hlen
    rcases h : GoStr.goSplit stream '@' with _ | ⟨a, _ | ⟨b, _ | ⟨c, tl⟩⟩⟩
    · simp [WSM.processMessage, h, WSM.DecodeOutcome.isHandled]
    · simp [WSM.processMessage, h, WSM.DecodeOutcome.isHandled]
    · exact absurd (by rw [h]; rfl) hlen
    · simp [WSM.processMessage, h, WSM.DecodeOutcome.isHandled]
  · intro stream payloadOk rawSym streamType h ht htr hk hd
    simp [WSM.processMessage, h, ht, htr, hk, hd,
      WSM.DecodeOutcome.isHandled]
  · rw [hrun]
    simp only [List.map_cons, List.filter_cons]
    rw [List.filter_eq_self.mpr]
    · rw [if_neg]
      · exact List.length_map _ _
      · simp [WSM.processMessage, WSM.DecodeOutcome.isHandled]
    · intro o ho
      rcases List.mem_map.mp ho with ⟨f, hf, rfl⟩
      exact hval f hf
  · rw [hrun]
  · rw [hrun]
    simp

/-- Witness for C5: one malformed frame, then two well-decoding frames with
all four handlers registered: exactly two handler invocations, three
processed frames, no termination. -/
theorem decode_resilience_witness :
    (∀ f ∈ ([WSM.Frame.valid "btcusdt@ticker" true,
             WSM.Frame.valid "ethusdt@trade" true] : List WSM.Frame),
      (WSM.processMessage (fun _ => true) f).isHandled = true) ∧
    ((WSM.runReadLoop (fun _ => true)
        ((WSM.Frame.malformed :: [WSM.Frame.valid "btcusdt@ticker" true,
            WSM.Frame.valid "ethusdt@trade" true]).map
          WSM.ReadEvent.frame)).1.filter
        (fun o => o.isHandled)).length
      = ([WSM.Frame.valid "btcusdt@ticker" true,
          WSM.Frame.valid "ethusdt@trade" true] : List WSM.Frame).length ∧
    (WSM.runReadLoop (fun _ => true)
        ((WSM.Frame.malformed :: [WSM.Frame.valid "btcusdt@ticker" true,
            WSM.Frame.valid "ethusdt@trade" true]).map
          WSM.ReadEvent.frame)).2 = false :=
  ⟨by decide,
    (decode_resilience (fun _ => true)
      [WSM.Frame.valid "btcusdt@ticker" true,
       WSM.Frame.valid "ethusdt@trade" true] (by decide)).2.2.2.1,
    (decode_resilience (fun _ => true)
      [WSM.Frame.valid "btcusdt@ticker" true,
       WSM.Frame.valid "ethusdt@trade" true] (by decide)).2.2.2.2.1⟩

/-- C6 counterexample: the wire object the hub enqueues for a concrete
BTCUSDT ticker broadcast has top-level fields exactly {type, data} — there
is no top-level `timestamp` or `symbol`, and the top-level `type` is
"market_update", not "ticker": the claimed {type, symbol, data, timestamp}
envelope is the *inner* object, not the enqueued one. -/
theorem envelope_topfields_counterexample :
    (MDS.handleTickerUpdate 1700000000123 Examples.tickerEv []).2.filterMap
        MDS.wireOf = [Examples.tickerWire] ∧
    MDS.topKeys Examples.tickerWire = ["type", "data"] ∧
    MDS.jsonGet Examples.tickerWire "timestamp" = none ∧
    MDS.jsonGet Examples.tickerWire "symbol" = none ∧
    MDS.jsonGet Examples.tickerWire "type"
      = some (MDS.Json.str "market_update") :=
  ⟨rfl, rfl, rfl, rfl, rfl⟩

/-- C6 amended: every message the ticker handler hands to
`WSHub.Broadcast` is enqueued on subscriber queues as the two-field JSON
envelope `{type:"market_update", data}`, whose `data` is the inner
envelope with fields exactly {type, symbol, data, timestamp}, `type`
naming the update kind ("ticker") and `symbol` the instrument — the
claimed four-field shape holds one level down, not at the top level. -/
theorem envelope_shape (now : Nat) (e : MDS.TickerEvent)
    (cache : MDS.PriceMap) :
    ∀ j ∈ (MDS.handleTickerUpdate now e cache).2.filterMap MDS.wireOf,
      MDS.topKeys j = ["type", "data"] ∧
      MDS.jsonGet j "type" = some (MDS.Json.str "market_update") ∧
      ∃ inner, MDS.jsonGet j "data" = some inner ∧
        MDS.topKeys inner = ["type", "symbol", "data", "timestamp"] ∧
        MDS.jsonGet inner "type" = some (MDS.Json.str "ticker") ∧
        MDS.jsonGet inner "symbol" = some (MDS.Json.str e.symbol) := by
  intro j hj
  have hlist : (MDS.handleTickerUpdate now e cache).2.filterMap MDS.wireOf
      = [MDS.wsMessageJson "market_update"
          (MDS.marketUpdateJson
            { type := "ticker", symbol := e.symbol,
              data := MDS.UpdatePayload.price (MDS.tickerPriceData now e),
              timestamp := now, metadata := none })] := rfl
  rw [hlist] at hj
  obtain rfl := List.mem_singleton.mp hj
  exact ⟨rfl, rfl, ⟨_, rfl, rfl, rfl, rfl⟩⟩

/-- Witness for C6 at the concrete BTCUSDT ticker broadcast. -/
theorem envelope_shape_witness :
    Examples.tickerWire ∈ (MDS.handleTickerUpdate 1700000000123
        Examples.tickerEv []).2.filterMap MDS.wireOf ∧
    (MDS.topKeys Examples.tickerWire = ["type", "data"] ∧
      MDS.jsonGet Examples.tickerWire "type"
        = some (MDS.Json.str "market_update") ∧
      ∃ inner, MDS.jsonGet Examples.tickerWire "data" = some inner ∧
        MDS.topKeys inner = ["type", "symbol", "data", "timestamp"] ∧
        MDS.jsonGet inner "type" = some (MDS.Json.str "ticker") ∧
        MDS.jsonGet inner "symbol"
          = some (MDS.Json.str Examples.tickerEv.symbol)) :=
  ⟨List.mem_singleton.mpr rfl,
    envelope_shape 1700000000123 Examples.tickerEv []
      Examples.tickerWire (List.mem_singleton.mpr rfl)⟩

/-- The call sequence of one flusher run does not depend on which calls
fail: the loop has no early exit and ignores the per-item error beyond
logging it. -/
theorem flushOnce_calls (fails : MDS.MarketPrice → Bool)
    (cache : MDS.PriceMap) :
    (MDS.flushOnce fails cache).map (fun r => r.1)
      = MDS.storeCalls cache := by
  induction cache with
  | nil => rfl
  | cons e rest ih =>
    simp [MDS.flushOnce, MDS.storeCalls] at ih ⊢
    exact ih

/-- C7: one flusher run issues exactly one `StorePrice` call per cached
symbol, in cache order; one symbol's storage failure does not change which
other calls are made; and two consecutive runs over an unchanged cache
yield, per payload, twice the calls with identical content — the flusher
never dedupes. -/
theorem flusher_per_symbol_no_dedupe (cache : MDS.PriceMap)
    (fails otherFails : MDS.MarketPrice → Bool) :
    (MDS.flushOnce fails cache).map (fun r => r.1)
      = MDS.storeCalls cache ∧
    (MDS.flushOnce fails cache).map (fun r => r.1)
      = (MDS.flushOnce otherFails cache).map (fun r => r.1) ∧
    (MDS.storeCalls cache).map (fun mp => mp.symbol)
      = cache.map (fun e => e.1) ∧
    (∀ mp, (MDS.storeCalls cache ++ MDS.storeCalls cache).count mp
      = 2 * (MDS.storeCalls cache).count mp) := by
  refine ⟨flushOnce_calls fails cache, ?_, ?_, ?_⟩
  · rw [flushOnce_calls, flushOnce_calls]
  · simp [MDS.storeCalls, List.map_map, Function.comp, MDS.toMarketPrice]
  · intro mp
    rw [List.count_append]
    omega

theorem list_getD_append_left {β : Type} (l l2 : List β) (d : β) (i : Nat)
    (h : i < l.length) : (l ++ l2).getD i d = l.getD i d := by
  induction l generalizing i with
  | nil => simp at h
  | cons a t ih =>
    cases i with
    | zero => rfl
    | succ n => exact ih n (by simpa using h)

theorem list_getD_append_length {β : Type} (l : List β) (x d : β) :
    (l ++ [x]).getD l.length d = x := by
  induction l with
  | nil => rfl
  | cons a t ih => exact ih

theorem list_getD_set_ne {β : Type} (l : List β) (i j : Nat) (x d : β)
    (h : i ≠ j) : (l.set i x).getD j d = l.getD j d := by
  induction l generalizing i j with
  | nil => rfl
  | cons a t ih =>
    cases i with
    | zero =>
      cases j with
      | zero => exact absurd rfl h
      | succ m => rfl
    | succ n =>
      cases j with
      | zero => rfl
      | succ m => exact ih n m (fun he => h (by rw [he]))

theorem mapLookup_insert_self (m : MDS.PriceMap) (k : String)
    (v : MDS.PriceData) :
    MDS.mapLookup (MDS.mapInsert m k v) k = some v := by
  induction m with
  | nil => simp [MDS.mapInsert, MDS.mapLookup]
  | cons e rest ih =>
    obtain ⟨k0, v0⟩ := e
    by_cases h : k0 == k <;>
      simp [MDS.mapInsert, MDS.mapLookup, h, ih]

theorem mapLookup_insert_ne (m : MDS.PriceMap) (k k2 : String)
    (v : MDS.PriceData) (h : k ≠ k2) :
    MDS.mapLookup (MDS.mapInsert m k v) k2 = MDS.mapLookup m k2 := by
  induction m with
  | nil => simp [MDS.mapInsert, MDS.mapLookup, h]
  | cons e rest ih =>
    obtain ⟨k0, v0⟩ := e
    by_cases h0 : k0 == k
    · have hk0 : k0 = k := by simpa using h0
      subst hk0
      simp [MDS.mapInsert, MDS.mapLookup, h]
    · by_cases h2 : k0 == k2 <;>
        simp [MDS.mapInsert, MDS.mapLookup, h0, h2, ih]

theorem mapLookup_eq_none (m : MDS.PriceMap) (k : String)
    (h : k ∉ m.map (fun e => e.1)) : MDS.mapLookup m k = none := by
  induction m with
  | nil => rfl
  | cons e rest ih =>
    obtain ⟨k0, v0⟩ := e
    simp only [List.map_cons, List.mem_cons] at h
    push_neg at h
    have hne : (k0 == k) = false :=
      beq_eq_false_iff_ne.mpr (fun he => h.1 he.symm)
    simp [MDS.mapLookup, hne, ih h.2]

/-- The copy loop of `GetAllPrices` — a fold of map inserts over the cache
entries — preserves lookups when the source has unique keys (a Go map
invariant), falling back to the accumulator for absent keys. -/
theorem copyFold_lookup (m : MDS.PriceMap) (acc : MDS.PriceMap)
    (k : String) (hnodup : (m.map (fun e => e.1)).Nodup) :
    MDS.mapLookup
        (m.foldl (fun a kv => MDS.mapInsert a kv.1 kv.2) acc) k
      = match MDS.mapLookup m k with
        | some v => some v
        | none => MDS.mapLookup acc k := by
  induction m generalizing acc with
  | nil => rfl
  | cons e rest ih =>
    obtain ⟨k0, v0⟩ := e
    simp only [List.map_cons, List.nodup_cons] at hnodup
    obtain ⟨hk0, hrest⟩ := hnodup
    rw [List.foldl_cons, ih _ hrest]
    by_cases h : k0 == k
    · have hk : k0 = k := by simpa using h
      subst hk
      rw [mapLookup_eq_none rest k0 hk0]
      simp [MDS.mapLookup, mapLookup_insert_self]
    · have hne : k0 ≠ k := by simpa using h
      rcases hr : MDS.mapLookup rest k with _ | v
      · simp [MDS.mapLookup, h, hr, mapLookup_insert_ne _ _ _ _ hne]
      · simp [MDS.mapLookup, h, hr]

/-- C8: `GetAllPrices` returns a map object distinct from the cache cell
whose entries look up identically to the cache's current entries, and the
cache cell itself is untouched; mutating the returned map afterwards leaves
the cache unchanged, so a subsequent `GetPriceData` still returns the
original snapshot. -/
theorem get_all_prices_defensive_copy (h : MDS.Heap) (cacheRef : Nat)
    (href : cacheRef < h.cells.length)
    (hnodup : ((MDS.heapGet h cacheRef).map (fun e => e.1)).Nodup) :
    (MDS.getAllPrices cacheRef h).1 ≠ cacheRef ∧
    (∀ k, MDS.mapLookup
        (MDS.heapGet (MDS.getAllPrices cacheRef h).2
          (MDS.getAllPrices cacheRef h).1) k
      = MDS.mapLookup (MDS.heapGet h cacheRef) k) ∧
    MDS.heapGet (MDS.getAllPrices cacheRef h).2 cacheRef
      = MDS.heapGet h cacheRef ∧
    (∀ k v sym,
      MDS.getPriceData cacheRef
        (MDS.heapMapAssign (MDS.getAllPrices cacheRef h).2
          (MDS.getAllPrices cacheRef h).1 k v) sym
      = MDS.getPriceData cacheRef h sym) := by
  have hfst : (MDS.getAllPrices cacheRef h).1 = h.cells.length := rfl
  have hcell : MDS.heapGet (MDS.getAllPrices cacheRef h).2 cacheRef
      = MDS.heapGet h cacheRef := by
    show ((h.cells ++ [_]).getD cacheRef []) = h.cells.getD cacheRef []
    exact list_getD_append_left _ _ _ _ href
  refine ⟨?_, ?_, hcell, ?_⟩
  · rw [hfst]
    omega
  · intro k
    have hcopy : MDS.heapGet (MDS.getAllPrices cacheRef h).2
        (MDS.getAllPrices cacheRef h).1
        = (MDS.heapGet h cacheRef).foldl
            (fun a kv => MDS.mapInsert a kv.1 kv.2) [] := by
      show ((h.cells ++ [_]).getD h.cells.length []) = _
      exact list_getD_append_length _ _ _
    rw [hcopy, copyFold_lookup _ _ _ hnodup]
    rcases MDS.mapLookup (MDS.heapGet h cacheRef) k with _ | v <;> rfl
  · intro k v sym
    show MDS.mapLookup
        ((((MDS.getAllPrices cacheRef h).2.cells).set
            (MDS.getAllPrices cacheRef h).1 _).getD cacheRef []) sym
      = MDS.mapLookup (h.cells.getD cacheRef []) sym
    rw [list_getD_set_ne _ _ _ _ _ (by rw [hfst]; omega)]
    have := congrArg (fun m => MDS.mapLookup m sym) hcell
    exact this

/-- Witness for C8 on a one-cell heap holding one cached snapshot. -/
theorem get_all_prices_defensive_copy_witness :
    (0 < Examples.heap1.cells.length ∧
      ((MDS.heapGet Examples.heap1 0).map (fun e => e.1)).Nodup) ∧
    ((MDS.getAllPrices 0 Examples.heap1).1 ≠ 0 ∧
      (∀ k, MDS.mapLookup
          (MDS.heapGet (MDS.getAllPrices 0 Examples.heap1).2
            (MDS.getAllPrices 0 Examples.heap1).1) k
        = MDS.mapLookup (MDS.heapGet Examples.heap1 0) k) ∧
      MDS.heapGet (MDS.getAllPrices 0 Examples.heap1).2 0
        = MDS.heapGet Examples.heap1 0 ∧
      (∀ k v sym,
        MDS.getPriceData 0
          (MDS.heapMapAssign (MDS.getAllPrices 0 Examples.heap1).2
            (MDS.getAllPrices 0 Examples.heap1).1 k v) sym
        = MDS.getPriceData 0 Examples.heap1 sym)) :=
  ⟨⟨by decide, by decide⟩,
    get_all_prices_defensive_copy Examples.heap1 0 (by decide) (by decide)⟩
